import Mathlib

/-!
Shallow embedding of the meme_maker compositing script (src/main.py).

The script has three parts that the verified claims are about:
* the compositor `process_image` (photo scaling decision, crop, masked
  paste, swap layering) together with the final 512-px rescale done in
  `__main__`;
* the asset resolver `get_required_assets` (the linked slot-chain walk
  over the position table, mask-path fallback, photo-count check);
* the `__main__` front matter (configuration loading, template-id
  extraction from the filename, template-id membership check).

Modelling conventions:
* Raster images are RGBA from the start (`convert("RGBA")` is the
  identity here); an image is a size plus a pixel function.
* Pillow paste-with-mask semantics follow the documented and implemented
  behaviour: where the mask value is m, every channel is blended with
  the integer formula MULDIV255(dst, 255 - m) + MULDIV255(src, m),
  MULDIV255(a, b) = ((t >> 8) + t) >> 8 with t = a * b + 128, which is
  Pillow's rounding division by 255.  A mask equal to 0 keeps the
  destination, 255 copies the source, intermediate values mix the two.
* Python float arithmetic (the scale factors) is modelled by exact
  rational arithmetic; int() truncation of the nonnegative quantities
  involved is the rational floor.
* The resampling kernel used by resize (LANCZOS) is an external library
  primitive; it enters the model as an arbitrary pixel-producing
  function, so every theorem below holds for every kernel.
* The filesystem enters the resolver as a boolean existence predicate
  on paths, and os.path.join dir name is modelled as dir ++ "/" ++ name
  (the script always passes a nonempty directory without a trailing
  separator).
-/

namespace MemeMaker

/-! ## Pixels and images -/

/-- One RGBA pixel; channel values are naturals (valid images keep them
at most 255). -/
structure Pix where
  r : Nat
  g : Nat
  b : Nat
  a : Nat
deriving DecidableEq, Repr

/-- The fully transparent black pixel used by Image.new(..., (0,0,0,0)). -/
def transparent : Pix := ⟨0, 0, 0, 0⟩

/-- Pillow's MULDIV255 rounding division: (a * b + 127.5-ish) / 255 as
implemented by ((t >> 8) + t) >> 8 with t = a * b + 128. -/
def muldiv255 (a b : Nat) : Nat :=
  ((a * b + 128) / 256 + (a * b + 128)) / 256

/-- One channel of Pillow's paste-with-mask blend: dst where the mask is
0, src where it is 255, a mix in between. -/
def blendChan (d s m : Nat) : Nat :=
  muldiv255 d (255 - m) + muldiv255 s m

/-- Blend two RGBA pixels under mask coverage m (all four bands are
blended, as Pillow does for RGBA images). -/
def blendPix (d s : Pix) (m : Nat) : Pix :=
  ⟨blendChan d.r s.r m, blendChan d.g s.g m, blendChan d.b s.b m,
   blendChan d.a s.a m⟩

/-- An RGBA raster image: a size and a pixel function (meaningful on
coordinates below the size). -/
structure Img where
  w : Nat
  h : Nat
  px : Nat → Nat → Pix

/-- Image.new("RGBA", (w, h), (0, 0, 0, 0)). -/
def Img.blank (w h : Nat) : Img := ⟨w, h, fun _ _ => transparent⟩

/-- Every channel of every in-bounds pixel is at most 255. -/
def Img.Valid (img : Img) : Prop :=
  ∀ u v, u < img.w → v < img.h →
    (img.px u v).r ≤ 255 ∧ (img.px u v).g ≤ 255 ∧
    (img.px u v).b ≤ 255 ∧ (img.px u v).a ≤ 255

/-- crop((0, 0, w, h)): truncate to the requested size, padding any
region outside the source with transparent black, exactly as Pillow
pads an extending crop. -/
def Img.cropTL (img : Img) (w h : Nat) : Img :=
  ⟨w, h, fun u v => if u < img.w ∧ v < img.h then img.px u v else transparent⟩

/-- The type of a resampling kernel: given the source image and the
target size it produces the pixel at each target coordinate.  The
LANCZOS kernel of the imaging library is one such function. -/
def ResizeKernel : Type := Img → Nat → Nat → Nat → Nat → Pix

/-- resize((nw, nh), LANCZOS): the size is the requested one, the pixel
content comes from the kernel. -/
def Img.resizeTo (rk : ResizeKernel) (img : Img) (nw nh : Nat) : Img :=
  ⟨nw, nh, rk img nw nh⟩

/-- dst.paste(src, (x, y), mask): requires the mask to have the source's
size (Pillow raises ValueError otherwise, modelled as none).  Inside the
pasted rectangle every channel is blended under the mask's alpha band;
outside it the destination is untouched.  The destination size never
changes, and the rectangle is implicitly clipped to the destination. -/
def Img.pasteMask (dst src : Img) (pos : Int × Int) (mask : Img) :
    Option Img :=
  if mask.w = src.w ∧ mask.h = src.h then
    some ⟨dst.w, dst.h, fun u v =>
      if 0 ≤ (u : Int) - pos.1 ∧ (u : Int) - pos.1 < (src.w : Int) ∧
          0 ≤ (v : Int) - pos.2 ∧ (v : Int) - pos.2 < (src.h : Int) then
        blendPix (dst.px u v)
          (src.px ((u : Int) - pos.1).toNat ((v : Int) - pos.2).toNat)
          ((mask.px ((u : Int) - pos.1).toNat ((v : Int) - pos.2).toNat).a)
      else dst.px u v⟩
  else none

/-! ## The compositor (process_image, src/main.py lines 12-96) -/

/-- Lines 33-59 of process_image: the decision whether to resize the
photo before cropping, and to which size.  Returns some (nw, nh) when a
resize happens, none when the photo is kept (either because it already
fits within the mask or because the computed dimensions degenerate).
Float arithmetic is modelled by exact rationals; int() of the
nonnegative quantities is the rational floor. -/
def resizeDecision (m p : Nat × Nat) : Option (Nat × Nat) :=
  if m.1 < p.1 ∨ m.2 < p.2 then
    let scale0 : ℚ :=
      if 0 < p.2 ∧ 0 < m.2 then
        let s : ℚ := (p.2 : ℚ) / (m.2 : ℚ)
        if ⌊(p.1 : ℚ) / s⌋₊ < m.1 ∧ 0 < p.1 ∧ 0 < m.1 then
          (p.1 : ℚ) / (m.1 : ℚ)
        else s
      else if 0 < p.1 ∧ 0 < m.1 then (p.1 : ℚ) / (m.1 : ℚ)
      else 1
    let scale : ℚ := if scale0 ≤ 0 then 1 else scale0
    let nw : Nat := ⌊(p.1 : ℚ) / scale⌋₊
    let nh : Nat := ⌊(p.2 : ℚ) / scale⌋₊
    if 0 < nw ∧ 0 < nh then some (nw, nh) else none
  else none

/-- Lines 28-63 of process_image: when a dimension of mask or photo is
zero, skip resize and crop and keep the photo; otherwise apply the
resize decision and crop the result to the mask size. -/
def scaledPhotoOf (rk : ResizeKernel) (mask photo : Img) : Img :=
  if mask.w = 0 ∨ mask.h = 0 ∨ photo.w = 0 ∨ photo.h = 0 then photo
  else
    (match resizeDecision (mask.w, mask.h) (photo.w, photo.h) with
     | some (nw, nh) => Img.resizeTo rk photo nw nh
     | none => photo).cropTL mask.w mask.h

/-- process_image(base, mask, photo, position, is_swap): normalise to
RGBA (identity here), scale and crop the photo; build the masked photo
layer on a transparent canvas using the mask's alpha; then either paste
it onto the base (standard layering) or build a transparent canvas of
the base's size, paste the masked photo there and paste the base on top
(swap layering).  none models the exception path (CompositionError). -/
def process_image (rk : ResizeKernel) (base mask photo : Img)
    (pos : Int × Int) (is_swap : Bool) : Option Img :=
  match Img.pasteMask (Img.blank mask.w mask.h) (scaledPhotoOf rk mask photo)
      (0, 0) mask with
  | none => none
  | some masked_photo =>
    if is_swap then
      match Img.pasteMask (Img.blank base.w base.h) masked_photo pos
          masked_photo with
      | none => none
      | some temp => Img.pasteMask temp base (0, 0) base
    else Img.pasteMask base masked_photo pos masked_photo

/-- Lines 307-326 of __main__: the final rescale applied once after the
compositing loop.  Only the resulting size matters to the claims. -/
def finalResize (w h : Nat) : Nat × Nat :=
  let m := max w h
  if m ≠ 512 ∧ 0 < m then
    let scale : ℚ := 512 / (m : ℚ)
    let fw : Nat := ⌊(w : ℚ) * scale⌋₊
    let fh : Nat := ⌊(h : ℚ) * scale⌋₊
    if 0 < fw ∧ 0 < fh then (fw, fh) else (w, h)
  else (w, h)

/-! ## The asset resolver (get_required_assets, src/main.py lines 135-197) -/

/-- One value of the positions table: a 2- or 3-element JSON array
[x, y] or [x, y, next_id]. -/
structure PosEntry where
  x : Int
  y : Int
  next : Option String
deriving DecidableEq, Repr

/-- The error outcomes of the resolver (each is a printed message plus a
None return in the script, which makes __main__ exit nonzero). -/
inductive ResolveError where
  | unknownSlot (id : String)
  | missingMask (id : String)
  | danglingRef (id : String)
  | insufficientPhotos (needed got : Nat)
deriving DecidableEq, Repr

/-- Python dict lookup over the positions mapping (keys are unique in a
JSON object, so first-match association lookup is faithful). -/
def lookupPos (l : List (String × PosEntry)) (k : String) : Option PosEntry :=
  match l with
  | [] => none
  | (k₁, v) :: rest => if k₁ = k then some v else lookupPos rest k

/-- Lines 159-175: resolve the mask path for slot id, trying
templateDir/mask-id-.png first and falling back to the root template's
mask templateDir/mask-rootId-.png; error when both are absent. -/
def resolveMaskPath (fsE : String → Bool) (dir rootId id : String) :
    Except ResolveError String :=
  let maskPath := dir ++ "/mask" ++ id ++ ".png"
  if fsE maskPath then .ok maskPath
  else
    let basePath := dir ++ "/mask" ++ rootId ++ ".png"
    if fsE basePath then .ok basePath
    else .error (.missingMask id)

deriving instance DecidableEq for Except

/-- The outcome of the chain walk: visited position entries, their mask
paths, and the number of photos needed (all in visit order). -/
abbrev WalkResult : Type :=
  Except ResolveError (List PosEntry × List String × Nat)

/-- One iteration of the while-loop (lines 145-187) at a live slot id:
stop successfully when id is falsy (the empty string) or was already
processed; otherwise look the slot up (unknown-slot error when absent),
resolve its mask, and follow next_id when present (dangling-reference
error when next_id is not a key), delegating the rest of the walk to
rec.  none propagates an out-of-fuel marker from rec. -/
def walkVisit (positions : List (String × PosEntry)) (fsE : String → Bool)
    (dir rootId : String) (rec : String → Finset String → Option WalkResult)
    (id : String) (processed : Finset String) : Option WalkResult :=
  if id = "" then some (.ok ([], [], 0))
  else if id ∈ processed then some (.ok ([], [], 0))
  else
    match lookupPos positions id with
    | none => some (.error (.unknownSlot id))
    | some entry =>
      match resolveMaskPath fsE dir rootId id with
      | .error e => some (.error e)
      | .ok maskPath =>
        match entry.next with
        | none => some (.ok ([entry], [maskPath], 1))
        | some nid =>
          if (lookupPos positions nid).isSome then
            match rec nid (insert id processed) with
            | none => none
            | some (.error e) => some (.error e)
            | some (.ok (es, ms, n)) =>
              some (.ok (entry :: es, maskPath :: ms, n + 1))
          else some (.error (.danglingRef nid))

/-- The while-loop of get_required_assets, with an explicit fuel bound on
the number of iterations; none means the fuel ran out.  The termination
theorem below shows that fuel exceeding the number of distinct keys of
the table never runs out, since each iteration consumes an unvisited
key. -/
def walkFuel (positions : List (String × PosEntry)) (fsE : String → Bool)
    (dir rootId : String) :
    Nat → Option String → Finset String → Option WalkResult
  | _, none, _ => some (.ok ([], [], 0))
  | 0, some _, _ => none
  | fuel + 1, some id, processed =>
    walkVisit positions fsE dir rootId
      (fun nid pr => walkFuel positions fsE dir rootId fuel (some nid) pr)
      id processed

/-- Fuel that provably suffices for the walk: one more than the number
of distinct slot ids in the table. -/
def rootFuel (positions : List (String × PosEntry)) : Nat :=
  ((positions.map Prod.fst).toFinset).card + 1

/-- get_required_assets(template_id, positions_data, photo_paths,
template_dir): run the chain walk from the template id, then check that
enough photos were supplied and select the first n of them (the photo
indices appended in the loop are exactly 0, 1, ..., n-1).  The none
branch of the fuelled walk is unreachable (see the termination
theorem). -/
def get_required_assets (templateId : String)
    (positions : List (String × PosEntry)) (photoPaths : List String)
    (fsE : String → Bool) (templateDir : String) :
    Except ResolveError (List String × List String × List PosEntry) :=
  match walkFuel positions fsE templateDir templateId (rootFuel positions)
      (some templateId) ∅ with
  | none => .error (.unknownSlot templateId)
  | some (.error e) => .error e
  | some (.ok (entries, masks, n)) =>
    if photoPaths.length < n then
      .error (.insufficientPhotos n photoPaths.length)
    else .ok (photoPaths.take n, masks, entries)

/-! ## The __main__ front matter (src/main.py lines 200-254) -/

/-- The state of the configuration file as __main__ finds it. -/
inductive ConfigState where
  | missing
  | invalidJson
  | parsed (positions : Option (List (String × PosEntry)))

/-- Lines 215-233: a missing file, invalid JSON, or an absent positions
key all degrade to an empty positions table with only a printed
warning (the sys.exit on empty positions is commented out). -/
def loadPositions : ConfigState → List (String × PosEntry)
  | .missing => []
  | .invalidJson => []
  | .parsed none => []
  | .parsed (some tbl) => tbl

/-- ASCII character class of the regex [a-zA-Z0-9_]. -/
def isWordChar (c : Char) : Bool :=
  ('a' ≤ c && c ≤ 'z') || ('A' ≤ c && c ≤ 'Z') ||
    ('0' ≤ c && c ≤ '9') || c = '_'

/-- Case-insensitive comparison of one character against an ASCII
pattern letter (re.IGNORECASE on the ASCII pattern). -/
def ciEqChar (c d : Char) : Bool := c.toLower = d.toLower

/-- re.match(r"eat([a-zA-Z0-9_]+)\.png", filename, re.IGNORECASE)
followed by .group(1).lower(), on the filename's characters.  re.match
anchors at the start only, so trailing characters after the .png are
accepted.  The greedy group is the maximal run of word characters: any
shorter run would put a word character where the non-word dot must
match, so no backtracking alternative exists. -/
def extractTemplateId (filename : List Char) : Option (List Char) :=
  match filename with
  | c₁ :: c₂ :: c₃ :: rest =>
    if ciEqChar c₁ 'e' && ciEqChar c₂ 'a' && ciEqChar c₃ 't' then
      let idRun := rest.takeWhile isWordChar
      if idRun.isEmpty then none
      else
        match rest.dropWhile isWordChar with
        | d :: p₁ :: n₁ :: g₁ :: _ =>
          if d = '.' && ciEqChar p₁ 'p' && ciEqChar n₁ 'n' && ciEqChar g₁ 'g'
          then some (idRun.map Char.toLower)
          else none
        | _ => none
    else none
  | _ => none

/-- Modelled from the spec: the filename matches the pattern
eat-ID-.png anchored at the start only, ID a nonempty run of word
characters, everything case-insensitive — the acceptance condition the
code actually implements (re.match does not anchor the end, so trailing
characters are allowed).  Stated as an existential decomposition for the
refinement comparison with extractTemplateId. -/
def matchesEatPattern (f : List Char) : Prop :=
  ∃ (c₁ c₂ c₃ : Char) (id : List Char) (d p n g : Char) (rest : List Char),
    f = c₁ :: c₂ :: c₃ :: (id ++ d :: p :: n :: g :: rest) ∧
    ciEqChar c₁ 'e' = true ∧ ciEqChar c₂ 'a' = true ∧
    ciEqChar c₃ 't' = true ∧ id ≠ [] ∧ (∀ c ∈ id, isWordChar c = true) ∧
    d = '.' ∧ ciEqChar p 'p' = true ∧ ciEqChar n 'n' = true ∧
    ciEqChar g 'g' = true

/-- Modelled from the spec: the whole filename matches eat-ID-.png
(case-insensitive, ID a nonempty run of word characters), with nothing
after the extension — the acceptance condition the claim asserts. -/
def matchesEatPatternExactly (f : List Char) : Prop :=
  ∃ (c₁ c₂ c₃ : Char) (id : List Char) (d p n g : Char),
    f = c₁ :: c₂ :: c₃ :: (id ++ [d, p, n, g]) ∧
    ciEqChar c₁ 'e' = true ∧ ciEqChar c₂ 'a' = true ∧
    ciEqChar c₃ 't' = true ∧ id ≠ [] ∧ (∀ c ∈ id, isWordChar c = true) ∧
    d = '.' ∧ ciEqChar p 'p' = true ∧ ciEqChar n 'n' = true ∧
    ciEqChar g 'g' = true

/-- The error outcomes of the front matter; configLoad is the error kind
the specification assigns to configuration problems, and the model shows
it is never produced. -/
inductive MainError where
  | configLoad
  | templateIdExtraction (filename : String)
  | unknownTemplateId (id : String)
deriving DecidableEq, Repr

/-- Lines 215-254 of __main__: load the positions table (warnings only),
extract the template id from the filename (exit 1 on failure), and check
that the id is a key of the table (exit 1 on failure).  An error value
models a nonzero process exit before any image is composed or saved. -/
def mainStage (cfg : ConfigState) (filename : List Char) :
    Except MainError (String × List (String × PosEntry)) :=
  let positions := loadPositions cfg
  match extractTemplateId filename with
  | none => .error (.templateIdExtraction (String.mk filename))
  | some idChars =>
    let tid := String.mk idChars
    if (lookupPos positions tid).isSome then .ok (tid, positions)
    else .error (.unknownTemplateId tid)

/-! ## Arithmetic helper lemmas -/

/-- Floor of a rational double division in terms of natural division. -/
lemma natFloor_div_div (a b c : ℕ) :
    ⌊(a : ℚ) / ((b : ℚ) / (c : ℚ))⌋₊ = a * c / b := by
  rw [div_div_eq_mul_div,
    show (a : ℚ) * (c : ℚ) = ((a * c : ℕ) : ℚ) by push_cast; ring]
  exact Nat.floor_div_eq_div (a * c) b

/-- Floor of the final-rescale product in terms of natural division. -/
lemma natFloor_mul_512div (w m : ℕ) :
    ⌊(w : ℚ) * (512 / (m : ℚ))⌋₊ = 512 * w / m := by
  rw [show (512 : ℚ) = ((512 : ℕ) : ℚ) by norm_num, ← mul_div_assoc,
    show (w : ℚ) * ((512 : ℕ) : ℚ) = ((w * 512 : ℕ) : ℚ) by push_cast; ring,
    Nat.floor_div_eq_div, Nat.mul_comm]

/-- Pillow's rounding division by 255 sends coverage 0 to 0. -/
lemma muldiv255_zero (a : Nat) : muldiv255 a 0 = 0 := by
  simp [muldiv255]

/-- Pillow's rounding division by 255 at full coverage is the identity
on channel values. -/
lemma muldiv255_full (a : Nat) (h : a ≤ 255) : muldiv255 a 255 = a := by
  unfold muldiv255; omega

/-- Blending under mask 0 keeps the destination channel. -/
lemma blendChan_zero (d s : Nat) (hd : d ≤ 255) : blendChan d s 0 = d := by
  unfold blendChan
  rw [Nat.sub_zero, muldiv255_full d hd, muldiv255_zero]
  omega

/-- Blending under mask 255 copies the source channel. -/
lemma blendChan_full (d s : Nat) (hs : s ≤ 255) : blendChan d s 255 = s := by
  unfold blendChan
  rw [Nat.sub_self, muldiv255_zero, muldiv255_full s hs]
  omega

/-- Blending a pixel under mask 0 keeps the destination pixel. -/
lemma blendPix_zero (d s : Pix) (hd : d.r ≤ 255 ∧ d.g ≤ 255 ∧ d.b ≤ 255 ∧ d.a ≤ 255) :
    blendPix d s 0 = d := by
  obtain ⟨h1, h2, h3, h4⟩ := hd
  simp [blendPix, blendChan_zero _ _ h1, blendChan_zero _ _ h2,
    blendChan_zero _ _ h3, blendChan_zero _ _ h4]

/-- Blending a pixel under mask 255 copies the source pixel. -/
lemma blendPix_full (d s : Pix) (hs : s.r ≤ 255 ∧ s.g ≤ 255 ∧ s.b ≤ 255 ∧ s.a ≤ 255) :
    blendPix d s 255 = s := by
  obtain ⟨h1, h2, h3, h4⟩ := hs
  simp [blendPix, blendChan_full _ _ h1, blendChan_full _ _ h2,
    blendChan_full _ _ h3, blendChan_full _ _ h4]

/-! ## Characterisations of the two scaling computations -/

/-- The resize decision of process_image, rephrased over natural-number
division, under the positivity that the zero-dimension guard has already
established: a resize happens exactly when the photo strictly exceeds
the mask in some dimension, scaling to mask height (width following
proportionally) unless the height-scaled width falls short of the mask
width, in which case it scales to mask width.  The computed target is
never degenerate, so the zero-guard branch is dead. -/
lemma resizeDecision_eq (m p : Nat × Nat)
    (hm1 : 0 < m.1) (hm2 : 0 < m.2) (hp1 : 0 < p.1) (hp2 : 0 < p.2) :
    resizeDecision m p =
      if m.1 < p.1 ∨ m.2 < p.2 then
        some (if p.1 * m.2 / p.2 < m.1 then (m.1, p.2 * m.1 / p.1)
              else (p.1 * m.2 / p.2, m.2))
      else none := by
  unfold resizeDecision
  by_cases hcond : m.1 < p.1 ∨ m.2 < p.2
  · rw [if_pos hcond, if_pos hcond]
    rw [if_pos (show 0 < p.2 ∧ 0 < m.2 from ⟨hp2, hm2⟩)]
    simp only [natFloor_div_div]
    by_cases hfb : p.1 * m.2 / p.2 < m.1
    · have eFB : (if p.1 * m.2 / p.2 < m.1 ∧ 0 < p.1 ∧ 0 < m.1 then
            (p.1 : ℚ) / (m.1 : ℚ) else (p.2 : ℚ) / (m.2 : ℚ)) =
          (p.1 : ℚ) / (m.1 : ℚ) := if_pos ⟨hfb, hp1, hm1⟩
      rw [eFB]
      have hq1 : (0 : ℚ) < (p.1 : ℚ) / (m.1 : ℚ) :=
        div_pos (by exact_mod_cast hp1) (by exact_mod_cast hm1)
      have eS : (if (p.1 : ℚ) / (m.1 : ℚ) ≤ 0 then (1 : ℚ)
            else (p.1 : ℚ) / (m.1 : ℚ)) = (p.1 : ℚ) / (m.1 : ℚ) :=
        if_neg (not_le.mpr hq1)
      rw [eS]
      simp only [natFloor_div_div]
      rw [Nat.mul_div_cancel_left m.1 hp1]
      have hlt : p.1 * m.2 < m.1 * p.2 := (Nat.div_lt_iff_lt_mul hp2).mp hfb
      have hple : p.1 ≤ p.2 * m.1 := by nlinarith
      have hh : 0 < p.2 * m.1 / p.1 := Nat.div_pos hple hp1
      rw [if_pos (show 0 < m.1 ∧ 0 < p.2 * m.1 / p.1 from ⟨hm1, hh⟩)]
      rw [if_pos hfb]
    · have eFB : (if p.1 * m.2 / p.2 < m.1 ∧ 0 < p.1 ∧ 0 < m.1 then
            (p.1 : ℚ) / (m.1 : ℚ) else (p.2 : ℚ) / (m.2 : ℚ)) =
          (p.2 : ℚ) / (m.2 : ℚ) := if_neg (fun hand => hfb hand.1)
      rw [eFB]
      have hq2 : (0 : ℚ) < (p.2 : ℚ) / (m.2 : ℚ) :=
        div_pos (by exact_mod_cast hp2) (by exact_mod_cast hm2)
      have eS : (if (p.2 : ℚ) / (m.2 : ℚ) ≤ 0 then (1 : ℚ)
            else (p.2 : ℚ) / (m.2 : ℚ)) = (p.2 : ℚ) / (m.2 : ℚ) :=
        if_neg (not_le.mpr hq2)
      rw [eS]
      simp only [natFloor_div_div]
      rw [Nat.mul_div_cancel_left m.2 hp2]
      have hwpos : 0 < p.1 * m.2 / p.2 :=
        Nat.lt_of_lt_of_le hm1 (Nat.le_of_not_lt hfb)
      rw [if_pos (show 0 < p.1 * m.2 / p.2 ∧ 0 < m.2 from ⟨hwpos, hm2⟩)]
      rw [if_neg hfb]
  · rw [if_neg hcond, if_neg hcond]

/-- The final 512-px rescale, rephrased over natural-number division:
when the largest dimension is neither 512 nor 0, both dimensions are
scaled by 512 over that largest dimension (floored), unless a scaled
dimension would vanish, in which case the canvas is kept. -/
lemma finalResize_eq (w h : Nat) :
    finalResize w h =
      if max w h ≠ 512 ∧ 0 < max w h then
        if 0 < 512 * w / max w h ∧ 0 < 512 * h / max w h then
          (512 * w / max w h, 512 * h / max w h)
        else (w, h)
      else (w, h) := by
  unfold finalResize
  simp only [natFloor_mul_512div]

/-! ## Claim C1: the per-layer scaling decision -/

/-- C1 counterexample: the claim says a photo not smaller than the mask
in either dimension is left unscaled, but with mask 8x8 and photo 10x10
(photo not smaller in either dimension) the code computes
scale = 10/8 and resizes the photo to (8, 8). -/
theorem claim_C1_counterexample :
    ¬ ((10 : Nat) < 8 ∨ (10 : Nat) < 8) ∧
      resizeDecision (8, 8) (10, 10) = some (8, 8) := by
  constructor
  · decide
  · rw [resizeDecision_eq (8, 8) (10, 10) (by decide) (by decide) (by decide)
      (by decide)]
    decide

/-- C1 (amended): after the zero-dimension check, the scaling branch
runs iff the photo is LARGER than the mask in either dimension (the
claim said smaller); in that branch the scale prefers height
(scale = photo_h / mask_h), falling back to width
(scale = photo_w / mask_w) when the height-scaled width would still be
narrower than the mask, and the photo is resized to the floor of
photo_size / scale — i.e. to (photo_w * mask_h / photo_h, mask_h) or to
(mask_w, photo_h * mask_w / photo_w); with all dimensions positive the
non-positive-scale guard and the zero-result guard never fire.  A photo
not larger than the mask in either dimension is left unscaled. -/
theorem claim_C1 (m p : Nat × Nat) (hm1 : 0 < m.1) (hm2 : 0 < m.2)
    (hp1 : 0 < p.1) (hp2 : 0 < p.2) :
    (¬ (m.1 < p.1 ∨ m.2 < p.2) → resizeDecision m p = none) ∧
    ((m.1 < p.1 ∨ m.2 < p.2) →
      resizeDecision m p =
        some (if p.1 * m.2 / p.2 < m.1 then (m.1, p.2 * m.1 / p.1)
              else (p.1 * m.2 / p.2, m.2))) := by
  rw [resizeDecision_eq m p hm1 hm2 hp1 hp2]
  constructor
  · intro hn
    rw [if_neg hn]
  · intro hy
    rw [if_pos hy]

/-- Witness for C1 at concrete sizes: an oversized photo is shrunk to
the mask, a photo that fits is kept. -/
theorem claim_C1_witness :
    resizeDecision (8, 8) (10, 10) = some (8, 8) ∧
    resizeDecision (10, 10) (5, 5) = none := by
  constructor
  · have h := claim_C1 (8, 8) (10, 10) (by decide) (by decide) (by decide)
      (by decide)
    rw [h.2 (by decide)]
    decide
  · have h := claim_C1 (10, 10) (5, 5) (by decide) (by decide) (by decide)
      (by decide)
    exact h.1 (by decide)

/-! ## Claim C4: the final rescale -/

/-- C4: the final rescale, applied once after all layers, computes
scale = 512 / max(width, height), resizes both dimensions by that scale
(floored), skips when the maximum dimension is already 512 or is zero,
and skips when either resulting dimension would be zero; concretely
(800, 400) becomes (512, 256) and (512, 300) is unchanged. -/
theorem claim_C4 :
    (∀ w h : Nat, max w h = 512 → finalResize w h = (w, h)) ∧
    (∀ w h : Nat, max w h = 0 → finalResize w h = (w, h)) ∧
    (∀ w h : Nat, max w h ≠ 512 → 0 < max w h →
      finalResize w h =
        if 0 < 512 * w / max w h ∧ 0 < 512 * h / max w h then
          (512 * w / max w h, 512 * h / max w h)
        else (w, h)) ∧
    finalResize 800 400 = (512, 256) ∧
    finalResize 512 300 = (512, 300) := by
  refine ⟨?_, ?_, ?_, ?_, ?_⟩
  · intro w h hm
    rw [finalResize_eq]
    simp [hm]
  · intro w h hm
    rw [finalResize_eq]
    simp [hm]
  · intro w h h1 h2
    rw [finalResize_eq, if_pos ⟨h1, h2⟩]
  · rw [finalResize_eq]
    decide
  · rw [finalResize_eq]
    decide

/-- Witness for C4 at concrete sizes: a 512-wide canvas and a degenerate
canvas are kept, a 1024-wide canvas is halved. -/
theorem claim_C4_witness :
    finalResize 512 512 = (512, 512) ∧ finalResize 0 0 = (0, 0) ∧
    finalResize 1024 100 = (512, 50) := by
  refine ⟨claim_C4.1 512 512 (by decide), claim_C4.2.1 0 0 (by decide), ?_⟩
  rw [claim_C4.2.2.1 1024 100 (by decide) (by decide)]
  decide

/-! ## Helper lemmas about the resolver walk -/

/-- A successful dict lookup means the key is among the table keys. -/
lemma lookupPos_mem_keys {l : List (String × PosEntry)} {k : String}
    {v : PosEntry} (h : lookupPos l k = some v) : k ∈ l.map Prod.fst := by
  induction l with
  | nil => simp [lookupPos] at h
  | cons kv rest ih =>
    obtain ⟨k₁, v₁⟩ := kv
    simp only [lookupPos] at h
    by_cases he : k₁ = k
    · subst he
      simp
    · rw [if_neg he] at h
      simp [ih h]

/-- The fuelled walk never exhausts fuel exceeding the number of
distinct unprocessed keys: every iteration consumes one unvisited key of
the table. -/
lemma walkFuel_isSome (positions : List (String × PosEntry))
    (fsE : String → Bool) (dir rootId : String) :
    ∀ (fuel : Nat) (cur : Option String) (processed : Finset String),
      ((positions.map Prod.fst).toFinset \ processed).card < fuel →
      (walkFuel positions fsE dir rootId fuel cur processed).isSome := by
  intro fuel
  induction fuel with
  | zero =>
    intro cur processed h
    exact absurd h (Nat.not_lt_zero _)
  | succ f ih =>
    intro cur processed h
    match cur with
    | none => simp [walkFuel]
    | some id =>
      simp only [walkFuel, walkVisit]
      by_cases h0 : id = ""
      · simp [h0]
      rw [if_neg h0]
      by_cases hmem : id ∈ processed
      · simp [hmem]
      rw [if_neg hmem]
      cases hl : lookupPos positions id with
      | none => simp
      | some entry =>
        obtain ⟨ex, ey, enext⟩ := entry
        cases hmask : resolveMaskPath fsE dir rootId id with
        | error e => simp
        | ok maskPath =>
          cases enext with
          | none => simp
          | some nid =>
            by_cases hnid : (lookupPos positions nid).isSome
            · have hidK : id ∈ (positions.map Prod.fst).toFinset :=
                List.mem_toFinset.mpr (lookupPos_mem_keys hl)
              have hsd : id ∈ (positions.map Prod.fst).toFinset \ processed :=
                Finset.mem_sdiff.mpr ⟨hidK, hmem⟩
              have hcard :
                  (((positions.map Prod.fst).toFinset \
                    insert id processed)).card < f := by
                rw [Finset.sdiff_insert, Finset.card_erase_of_mem hsd]
                have hpos : 0 <
                    ((positions.map Prod.fst).toFinset \ processed).card :=
                  Finset.card_pos.mpr ⟨id, hsd⟩
                omega
              obtain ⟨r, hr⟩ := Option.isSome_iff_exists.mp
                (ih (some nid) (insert id processed) hcard)
              match r with
              | .error e => simp [hnid, hr]
              | .ok (es, ms, n) => simp [hnid, hr]
            · simp [hnid]

/-- In a successful walk outcome the two collected lists have exactly
the counted length. -/
lemma walkFuel_ok_lengths (positions : List (String × PosEntry))
    (fsE : String → Bool) (dir rootId : String) :
    ∀ (fuel : Nat) (cur : Option String) (processed : Finset String)
      (es : List PosEntry) (ms : List String) (n : Nat),
      walkFuel positions fsE dir rootId fuel cur processed =
        some (.ok (es, ms, n)) →
      es.length = n ∧ ms.length = n := by
  intro fuel
  induction fuel with
  | zero =>
    intro cur processed es ms n h
    match cur with
    | none =>
      simp only [walkFuel] at h
      simp at h
      obtain ⟨rfl, rfl, rfl⟩ := h
      exact ⟨rfl, rfl⟩
    | some id => simp [walkFuel] at h
  | succ f ih =>
    intro cur processed es ms n h
    match cur with
    | none =>
      simp only [walkFuel] at h
      simp at h
      obtain ⟨rfl, rfl, rfl⟩ := h
      exact ⟨rfl, rfl⟩
    | some id =>
      simp only [walkFuel, walkVisit] at h
      by_cases h0 : id = ""
      · rw [if_pos h0] at h
        simp at h
        obtain ⟨rfl, rfl, rfl⟩ := h
        exact ⟨rfl, rfl⟩
      rw [if_neg h0] at h
      by_cases hmem : id ∈ processed
      · rw [if_pos hmem] at h
        simp at h
        obtain ⟨rfl, rfl, rfl⟩ := h
        exact ⟨rfl, rfl⟩
      rw [if_neg hmem] at h
      cases hl : lookupPos positions id with
      | none =>
        simp only [hl] at h
        simp at h
      | some entry =>
        obtain ⟨ex, ey, enext⟩ := entry
        simp only [hl] at h
        cases hmask : resolveMaskPath fsE dir rootId id with
        | error e =>
          simp only [hmask] at h
          simp at h
        | ok maskPath =>
          simp only [hmask] at h
          cases enext with
          | none =>
            simp at h
            obtain ⟨rfl, rfl, rfl⟩ := h
            exact ⟨rfl, rfl⟩
          | some nid =>
            by_cases hnid : (lookupPos positions nid).isSome
            · simp only [hnid, if_true] at h
              cases hr : walkFuel positions fsE dir rootId f (some nid)
                  (insert id processed) with
              | none =>
                simp only [hr] at h
                simp at h
              | some r =>
                simp only [hr] at h
                match r with
                | .error e => simp at h
                | .ok (es₁, ms₁, n₁) =>
                  simp at h
                  obtain ⟨rfl, rfl, rfl⟩ := h
                  obtain ⟨hl1, hl2⟩ := ih (some nid) (insert id processed)
                    es₁ ms₁ n₁ hr
                  simp [hl1, hl2]
            · simp [hnid] at h

/-- On a successful mask resolution the returned path is the slot's own
mask when that file exists, the root's mask otherwise, and one of the
two files exists. -/
lemma resolveMaskPath_ok (fsE : String → Bool) (dir rootId id mp : String)
    (h : resolveMaskPath fsE dir rootId id = .ok mp) :
    mp = (if fsE (dir ++ "/mask" ++ id ++ ".png")
          then dir ++ "/mask" ++ id ++ ".png"
          else dir ++ "/mask" ++ rootId ++ ".png") ∧
    (fsE (dir ++ "/mask" ++ id ++ ".png") = true ∨
     fsE (dir ++ "/mask" ++ rootId ++ ".png") = true) := by
  unfold resolveMaskPath at h
  by_cases h1 : fsE (dir ++ "/mask" ++ id ++ ".png")
  · rw [if_pos h1] at h
    simp at h
    simp [h1, h.symm]
  · rw [if_neg h1] at h
    by_cases h2 : fsE (dir ++ "/mask" ++ rootId ++ ".png")
    · rw [if_pos h2] at h
      simp at h
      simp [Bool.eq_false_iff.mpr h1, h2, h.symm]
    · rw [if_neg h2] at h
      simp at h

/-! ## Claim C3: photo count and positional zip -/

/-- C3: for a walk that visits n slots, the resolver fails with
InsufficientPhotosError(n, got) when fewer than n photo sources are
supplied, and otherwise succeeds returning exactly the first n photo
sources in supplied order together with the n mask paths and n position
entries collected in visit order. -/
theorem claim_C3 (tid : String) (positions : List (String × PosEntry))
    (photos : List String) (fsE : String → Bool) (dir : String)
    (es : List PosEntry) (ms : List String) (n : Nat)
    (hwalk : walkFuel positions fsE dir tid (rootFuel positions)
      (some tid) ∅ = some (.ok (es, ms, n))) :
    (photos.length < n →
      get_required_assets tid positions photos fsE dir =
        .error (.insufficientPhotos n photos.length)) ∧
    (n ≤ photos.length →
      get_required_assets tid positions photos fsE dir =
        .ok (photos.take n, ms, es) ∧
      (photos.take n).length = n ∧ ms.length = n ∧ es.length = n) := by
  have hlen := walkFuel_ok_lengths positions fsE dir tid (rootFuel positions)
    (some tid) ∅ es ms n hwalk
  constructor
  · intro hlt
    simp [get_required_assets, hwalk, hlt]
  · intro hle
    have hnlt : ¬ photos.length < n := Nat.not_lt.mpr hle
    refine ⟨by simp [get_required_assets, hwalk, hnlt], ?_, hlen.2, hlen.1⟩
    simp [List.length_take, Nat.min_eq_left hle]

/-- Witness for C3 on a two-slot chain: one photo is too few, two photos
are selected in order and zipped with the masks and entries. -/
theorem claim_C3_witness :
    get_required_assets "a" [("a", ⟨0, 0, some "b"⟩), ("b", ⟨1, 1, none⟩)]
        ["p"] (fun _ => true) "t" =
      .error (.insufficientPhotos 2 1) ∧
    get_required_assets "a" [("a", ⟨0, 0, some "b"⟩), ("b", ⟨1, 1, none⟩)]
        ["p", "q", "r"] (fun _ => true) "t" =
      .ok (["p", "q"], ["t/maska.png", "t/maskb.png"],
        [⟨0, 0, some "b"⟩, ⟨1, 1, none⟩]) := by
  have hwalk : walkFuel [("a", ⟨0, 0, some "b"⟩), ("b", ⟨1, 1, none⟩)]
      (fun _ => true) "t" "a"
      (rootFuel [("a", ⟨0, 0, some "b"⟩), ("b", ⟨1, 1, none⟩)])
      (some "a") ∅ =
      some (.ok ([⟨0, 0, some "b"⟩, ⟨1, 1, none⟩],
        ["t/maska.png", "t/maskb.png"], 2)) := by decide
  have h1 := (claim_C3 "a" [("a", ⟨0, 0, some "b"⟩), ("b", ⟨1, 1, none⟩)]
    ["p"] (fun _ => true) "t" _ _ _ hwalk).1 (by decide)
  have h2 := (claim_C3 "a" [("a", ⟨0, 0, some "b"⟩), ("b", ⟨1, 1, none⟩)]
    ["p", "q", "r"] (fun _ => true) "t" _ _ _ hwalk).2 (by decide)
  exact ⟨h1, h2.1⟩

/-! ## Claim C5: dangling next_id references -/

/-- C5 counterexample: the claim says a visited entry with a dangling
next_id always makes resolve fail with DanglingReferenceError(next_id),
but when the same slot's mask is missing the walk fails with
MissingMaskError for the slot before ever checking next_id. -/
theorem claim_C5_counterexample :
    get_required_assets "a" [("a", ⟨0, 0, some "zz"⟩)] ["p"]
        (fun _ => false) "t" = .error (.missingMask "a") ∧
    ResolveError.missingMask "a" ≠ ResolveError.danglingRef "zz" := by
  constructor
  · decide
  · decide

/-- C5 (amended): at every slot the walk actually visits whose entry
carries a next_id that is not a key of the table, the walk stops with an
error and never continues past the dangling link: the error is
DanglingReferenceError(next_id) whenever the slot's mask resolution
succeeded, and the slot's MissingMaskError otherwise (mask resolution
precedes the next_id check). -/
theorem claim_C5 (positions : List (String × PosEntry)) (fsE : String → Bool)
    (dir rootId : String) (fuel : Nat) (id : String)
    (processed : Finset String) (entry : PosEntry) (nid : String)
    (h0 : id ≠ "") (hmem : id ∉ processed)
    (hl : lookupPos positions id = some entry)
    (hnext : entry.next = some nid)
    (hdangling : lookupPos positions nid = none) :
    (∀ mp, resolveMaskPath fsE dir rootId id = .ok mp →
      walkFuel positions fsE dir rootId (fuel + 1) (some id) processed =
        some (.error (.danglingRef nid))) ∧
    (∀ e, resolveMaskPath fsE dir rootId id = .error e →
      walkFuel positions fsE dir rootId (fuel + 1) (some id) processed =
        some (.error e)) := by
  constructor
  · intro mp hmp
    simp [walkFuel, walkVisit, h0, hmem, hl, hmp, hnext, hdangling]
  · intro e he
    simp [walkFuel, walkVisit, h0, hmem, hl, he]

/-- Witness for C5: with the mask present the dangling reference is
reported; with no masks at all the missing mask is reported instead. -/
theorem claim_C5_witness :
    walkFuel [("a", ⟨0, 0, some "zz"⟩)] (fun _ => true) "t" "a" 1
        (some "a") ∅ = some (.error (.danglingRef "zz")) ∧
    walkFuel [("a", ⟨0, 0, some "zz"⟩)] (fun _ => false) "t" "a" 1
        (some "a") ∅ = some (.error (.missingMask "a")) := by
  constructor
  · exact (claim_C5 [("a", ⟨0, 0, some "zz"⟩)] (fun _ => true) "t" "a" 0 "a"
      ∅ ⟨0, 0, some "zz"⟩ "zz" (by decide) (by simp) rfl rfl rfl).1
      "t/maska.png" rfl
  · exact (claim_C5 [("a", ⟨0, 0, some "zz"⟩)] (fun _ => false) "t" "a" 0 "a"
      ∅ ⟨0, 0, some "zz"⟩ "zz" (by decide) (by simp) rfl rfl rfl).2
      (.missingMask "a") rfl

/-! ## Claim C6: mask path resolution with root fallback -/

/-- C6: at every slot the walk actually visits, the mask path used is
templateDir/mask-id-.png when that file exists, otherwise
templateDir/mask-rootId-.png when that exists, and when neither exists
the walk stops with MissingMaskError(id). -/
theorem claim_C6 (positions : List (String × PosEntry)) (fsE : String → Bool)
    (dir rootId : String) (fuel : Nat) (id : String)
    (processed : Finset String) (entry : PosEntry)
    (h0 : id ≠ "") (hmem : id ∉ processed)
    (hl : lookupPos positions id = some entry) :
    ((fsE (dir ++ "/mask" ++ id ++ ".png") = false ∧
      fsE (dir ++ "/mask" ++ rootId ++ ".png") = false) →
      walkFuel positions fsE dir rootId (fuel + 1) (some id) processed =
        some (.error (.missingMask id))) ∧
    (∀ es ms n,
      walkFuel positions fsE dir rootId (fuel + 1) (some id) processed =
        some (.ok (es, ms, n)) →
      ms.head? = some (if fsE (dir ++ "/mask" ++ id ++ ".png")
                       then dir ++ "/mask" ++ id ++ ".png"
                       else dir ++ "/mask" ++ rootId ++ ".png") ∧
      (fsE (dir ++ "/mask" ++ id ++ ".png") = true ∨
       fsE (dir ++ "/mask" ++ rootId ++ ".png") = true)) := by
  constructor
  · intro ⟨hs, hb⟩
    simp [walkFuel, walkVisit, h0, hmem, hl, resolveMaskPath, hs, hb]
  · intro es ms n h
    simp only [walkFuel, walkVisit] at h
    rw [if_neg h0, if_neg hmem] at h
    simp only [hl] at h
    cases hmask : resolveMaskPath fsE dir rootId id with
    | error e =>
      simp only [hmask] at h
      simp at h
    | ok mp =>
      simp only [hmask] at h
      obtain ⟨hmp, hex⟩ := resolveMaskPath_ok fsE dir rootId id mp hmask
      refine ⟨?_, hex⟩
      cases hen : entry.next with
      | none =>
        rw [hen] at h
        simp at h
        obtain ⟨rfl, rfl, rfl⟩ := h
        simp [hmp]
      | some nid =>
        rw [hen] at h
        by_cases hnid : (lookupPos positions nid).isSome
        · simp only [hnid, if_true] at h
          cases hr : walkFuel positions fsE dir rootId fuel (some nid)
              (insert id processed) with
          | none =>
            simp only [hr] at h
            simp at h
          | some r =>
            simp only [hr] at h
            match r with
            | .error e => simp at h
            | .ok (es₁, ms₁, n₁) =>
              simp at h
              obtain ⟨rfl, rfl, rfl⟩ := h
              simp [hmp]
        · simp [hnid] at h

/-- Witness for C6: the specific mask is used when present, the root
mask when only it is present, and neither existing is an error. -/
theorem claim_C6_witness :
    walkFuel [("b", ⟨0, 0, none⟩)] (fun _ => false) "t" "a" 1 (some "b") ∅ =
      some (.error (.missingMask "b")) ∧
    (["t/maskb.png"].head? =
      some (if (fun s => s = "t/maskb.png") "t/maskb.png"
            then "t/maskb.png" else "t/maska.png")) ∧
    (["t/maska.png"].head? =
      some (if (fun s => s = "t/maska.png") "t/maskb.png"
            then "t/maskb.png" else "t/maska.png")) := by
  refine ⟨(claim_C6 [("b", ⟨0, 0, none⟩)] (fun _ => false) "t" "a" 0 "b" ∅
    ⟨0, 0, none⟩ (by decide) (by simp) rfl).1 (by decide), ?_, ?_⟩
  · exact ((claim_C6 [("b", ⟨0, 0, none⟩)] (fun s => s = "t/maskb.png") "t"
      "a" 0 "b" ∅ ⟨0, 0, none⟩ (by decide) (by simp) rfl).2
      [⟨0, 0, none⟩] ["t/maskb.png"] 1 (by decide)).1
  · exact ((claim_C6 [("b", ⟨0, 0, none⟩)] (fun s => s = "t/maska.png") "t"
      "a" 0 "b" ∅ ⟨0, 0, none⟩ (by decide) (by simp) rfl).2
      [⟨0, 0, none⟩] ["t/maska.png"] 1 (by decide)).1

/-! ## Claim C7: termination of the walk on every table -/

/-- C7: the resolver walk terminates on every position table, cyclic
ones included: fuel exceeding the number of distinct unprocessed keys is
never exhausted (each iteration consumes an unvisited key), and
revisiting an already-visited slot id ends the walk immediately as a
success, so the resolver is a total function of its inputs. -/
theorem claim_C7 :
    (∀ (positions : List (String × PosEntry)) (fsE : String → Bool)
      (dir rootId : String) (fuel : Nat) (cur : Option String)
      (processed : Finset String),
      ((positions.map Prod.fst).toFinset \ processed).card < fuel →
      (walkFuel positions fsE dir rootId fuel cur processed).isSome) ∧
    (∀ (positions : List (String × PosEntry)) (fsE : String → Bool)
      (dir rootId : String) (fuel : Nat) (id : String)
      (processed : Finset String), id ∈ processed →
      walkFuel positions fsE dir rootId (fuel + 1) (some id) processed =
        some (.ok ([], [], 0))) := by
  constructor
  · intro positions fsE dir rootId fuel cur processed h
    exact walkFuel_isSome positions fsE dir rootId fuel cur processed h
  · intro positions fsE dir rootId fuel id processed hmem
    by_cases h0 : id = ""
    · simp [walkFuel, walkVisit, h0]
    · simp [walkFuel, walkVisit, h0, hmem]

/-- Witness for C7 on a two-slot cyclic table a -> b -> a: the walk
produces a result within the proved fuel bound, and revisiting slot a
ends the walk successfully. -/
theorem claim_C7_witness :
    (walkFuel [("a", ⟨0, 0, some "b"⟩), ("b", ⟨1, 1, some "a"⟩)]
      (fun _ => true) "t" "a" 3 (some "a") ∅).isSome ∧
    walkFuel [("a", ⟨0, 0, some "b"⟩), ("b", ⟨1, 1, some "a"⟩)]
      (fun _ => true) "t" "a" 1 (some "a") {"a", "b"} =
      some (.ok ([], [], 0)) := by
  constructor
  · exact claim_C7.1 [("a", ⟨0, 0, some "b"⟩), ("b", ⟨1, 1, some "a"⟩)]
      (fun _ => true) "t" "a" 3 (some "a") ∅ (by decide)
  · exact claim_C7.2 [("a", ⟨0, 0, some "b"⟩), ("b", ⟨1, 1, some "a"⟩)]
      (fun _ => true) "t" "a" 0 "a" {"a", "b"} (by decide)

/-! ## Claim C2: configuration load failures -/

/-- C2 counterexample: with the configuration file missing and the
template filename eatri.png, the program does abort, but the reported
error is the template-id-not-in-positions failure from the later check,
not a ConfigLoadError: config problems themselves only produce
warnings. -/
theorem claim_C2_counterexample :
    mainStage .missing "eatri.png".data =
      .error (.unknownTemplateId "ri") ∧
    MainError.unknownTemplateId "ri" ≠ MainError.configLoad := by
  constructor
  · decide
  · decide

/-- C2 (amended): for every run whose configuration file is missing,
contains invalid JSON, or lacks the positions key, the positions table
degrades to empty with only a warning, and the program still aborts with
a non-zero exit before producing any output — but at the template-id
stage (extraction failure or template id not found in the empty table),
never reporting a ConfigLoadError. -/
theorem claim_C2 (cfg : ConfigState)
    (hbad : cfg = .missing ∨ cfg = .invalidJson ∨ cfg = .parsed none) :
    ∀ filename : List Char, ∃ e : MainError,
      mainStage cfg filename = .error e ∧ e ≠ .configLoad := by
  have hpos : loadPositions cfg = [] := by
    rcases hbad with rfl | rfl | rfl <;> rfl
  intro filename
  cases hx : extractTemplateId filename with
  | none =>
    exact ⟨.templateIdExtraction (String.mk filename),
      by simp [mainStage, hx], by simp⟩
  | some idc =>
    exact ⟨.unknownTemplateId (String.mk idc),
      by simp [mainStage, hpos, hx, lookupPos], by simp⟩

/-- Witness for C2: a missing configuration together with a well-formed
template filename still aborts, with a non-config error. -/
theorem claim_C2_witness :
    ∃ e : MainError, mainStage .missing "eatri.png".data = .error e ∧
      e ≠ .configLoad :=
  claim_C2 .missing (Or.inl rfl) "eatri.png".data

/-! ## Claim C8: template filename pattern -/

/-- Helper: takeWhile and dropWhile cut a list exactly at the first
element refuting the predicate. -/
lemma takeWhile_dropWhile_cut {p : Char → Bool} (l₁ : List Char) (b : Char)
    (l₂ : List Char) (h1 : ∀ c ∈ l₁, p c = true) (hb : p b = false) :
    (l₁ ++ b :: l₂).takeWhile p = l₁ ∧
    (l₁ ++ b :: l₂).dropWhile p = b :: l₂ := by
  induction l₁ with
  | nil => simp [List.takeWhile_cons, List.dropWhile_cons, hb]
  | cons c rest ih =>
    have hc : p c = true := h1 c (by simp)
    have ih₁ := ih (fun x hx => h1 x (by simp [hx]))
    simp [List.takeWhile_cons, List.dropWhile_cons, hc, ih₁.1, ih₁.2]

/-- C8 counterexample: the filename eatab.pngx does not match
eat-ID-.png as a whole (there is a trailing x), yet the program accepts
it and derives the id ab, because re.match anchors the pattern only at
the start of the filename. -/
theorem claim_C8_counterexample :
    extractTemplateId "eatab.pngx".data = some "ab".data ∧
    ¬ matchesEatPatternExactly "eatab.pngx".data := by
  constructor
  · decide
  · rintro ⟨c₁, c₂, c₃, id, d, p, n, g, heq, he, ha, ht, hne, hw, hd, hp,
      hn, hg⟩
    have hdata : "eatab.pngx".data =
        ['e', 'a', 't', 'a', 'b', '.', 'p', 'n', 'g', 'x'] := rfl
    rw [hdata] at heq
    simp only [List.cons.injEq] at heq
    obtain ⟨rfl, rfl, rfl, htail⟩ := heq
    have hlen : id.length = 3 := by
      have := congrArg List.length htail
      simp at this
      omega
    have htail₂ : (['a', 'b', '.'] : List Char) ++ ['p', 'n', 'g', 'x'] =
        id ++ [d, p, n, g] := htail
    obtain ⟨hid, _⟩ := List.append_inj htail₂ (by simp [hlen])
    exact absurd (hw '.' (by rw [← hid]; decide)) (by decide)

/-- C8 (amended): the program accepts a template filename exactly when
it BEGINS with eat-ID-.png (case-insensitive, ID a nonempty run of
letters, digits and underscore; trailing characters after the extension
are allowed, since re.match anchors only at the start), the derived root
id being the lower-cased ID; every other filename aborts with
TemplateIdExtractionError. -/
theorem claim_C8 (f : List Char) :
    (∀ idc, extractTemplateId f = some idc →
      ∃ (c₁ c₂ c₃ : Char) (id : List Char) (d p n g : Char)
        (rest : List Char),
        f = c₁ :: c₂ :: c₃ :: (id ++ d :: p :: n :: g :: rest) ∧
        ciEqChar c₁ 'e' = true ∧ ciEqChar c₂ 'a' = true ∧
        ciEqChar c₃ 't' = true ∧ id ≠ [] ∧
        (∀ c ∈ id, isWordChar c = true) ∧ d = '.' ∧
        ciEqChar p 'p' = true ∧ ciEqChar n 'n' = true ∧
        ciEqChar g 'g' = true ∧ idc = id.map Char.toLower) ∧
    (matchesEatPattern f → (extractTemplateId f).isSome) ∧
    (∀ cfg : ConfigState, extractTemplateId f = none →
      mainStage cfg f = .error (.templateIdExtraction (String.mk f))) := by
  refine ⟨?_, ?_, ?_⟩
  · intro idc h
    match f with
    | [] => simp [extractTemplateId] at h
    | [c₁] => simp [extractTemplateId] at h
    | [c₁, c₂] => simp [extractTemplateId] at h
    | c₁ :: c₂ :: c₃ :: rest =>
      simp only [extractTemplateId] at h
      by_cases heat : (ciEqChar c₁ 'e' && ciEqChar c₂ 'a' &&
          ciEqChar c₃ 't') = true
      · rw [if_pos heat] at h
        obtain ⟨⟨he, ha⟩, ht⟩ := by simpa [Bool.and_eq_true] using heat
        by_cases hempty : (rest.takeWhile isWordChar).isEmpty = true
        · rw [if_pos hempty] at h
          simp at h
        · rw [if_neg hempty] at h
          cases hdrop : rest.dropWhile isWordChar with
          | nil =>
            simp only [hdrop] at h
            simp at h
          | cons d tail₁ =>
            match tail₁ with
            | [] =>
              simp only [hdrop] at h
              simp at h
            | [p] =>
              simp only [hdrop] at h
              simp at h
            | [p, n] =>
              simp only [hdrop] at h
              simp at h
            | p :: n :: g :: tl =>
              simp only [hdrop] at h
              by_cases hpng : (d = '.' && ciEqChar p 'p' && ciEqChar n 'n' &&
                  ciEqChar g 'g') = true
              · rw [if_pos hpng] at h
                obtain ⟨⟨⟨hd, hp⟩, hn⟩, hg⟩ := by
                  simpa [Bool.and_eq_true] using hpng
                refine ⟨c₁, c₂, c₃, rest.takeWhile isWordChar, d, p, n, g,
                  tl, ?_, he, ha, ht, ?_, ?_, ?_, hp, hn, hg, ?_⟩
                · have hsplit := List.takeWhile_append_dropWhile
                    (p := isWordChar) (l := rest)
                  rw [hdrop] at hsplit
                  rw [hsplit]
                · intro habs
                  rw [habs] at hempty
                  simp at hempty
                · intro c hc
                  exact List.mem_takeWhile_imp hc
                · exact hd
                · simp at h
                  exact h.symm
              · rw [if_neg hpng] at h
                simp at h
      · rw [if_neg heat] at h
        simp at h
  · rintro ⟨c₁, c₂, c₃, id, d, p, n, g, rest, rfl, he, ha, ht, hne, hw, hd,
      hp, hn, hg⟩
    subst hd
    have hdot : isWordChar '.' = false := by decide
    obtain ⟨htake, hdropW⟩ := takeWhile_dropWhile_cut id '.'
      (p :: n :: g :: rest) hw hdot
    have hne' : id.isEmpty = false := by
      cases id with
      | nil => exact absurd rfl hne
      | cons c cs => rfl
    simp [extractTemplateId, htake, hdropW, he, ha, ht, hp, hn, hg, hne']
  · intro cfg h
    simp [mainStage, h]

/-- Witness for C8: eatRI.png is accepted (id ri), and zzz.png aborts
with the extraction error. -/
theorem claim_C8_witness :
    (extractTemplateId "eatRI.png".data).isSome ∧
    mainStage .missing "zzz.png".data =
      .error (.templateIdExtraction "zzz.png") := by
  constructor
  · exact (claim_C8 "eatRI.png".data).2.1
      ⟨'e', 'a', 't', ['R', 'I'], '.', 'p', 'n', 'g', [], rfl, by decide,
        by decide, by decide, by decide, by decide, rfl, by decide,
        by decide, by decide⟩
  · exact (claim_C8 "zzz.png".data).2.2 .missing (by decide)

/-! ## Helper lemmas about paste and the compositor -/

/-- Paste succeeds exactly when the mask has the source's size; this is
the success shape. -/
lemma pasteMask_isSome (dst src : Img) (pos : Int × Int) (mask : Img)
    (hc : mask.w = src.w ∧ mask.h = src.h) :
    (Img.pasteMask dst src pos mask).isSome := by
  unfold Img.pasteMask
  rw [if_pos hc]
  rfl

/-- A successful paste keeps the destination's size. -/
lemma pasteMask_size (dst src : Img) (pos : Int × Int) (mask out : Img)
    (h : Img.pasteMask dst src pos mask = some out) :
    out.w = dst.w ∧ out.h = dst.h := by
  unfold Img.pasteMask at h
  by_cases hc : mask.w = src.w ∧ mask.h = src.h
  · rw [if_pos hc] at h
    simp only [Option.some.injEq] at h
    subst h
    exact ⟨rfl, rfl⟩
  · rw [if_neg hc] at h
    simp at h

/-- The pixels of a successful paste: blended inside the pasted
rectangle, untouched outside it. -/
lemma pasteMask_px (dst src : Img) (pos : Int × Int) (mask out : Img)
    (h : Img.pasteMask dst src pos mask = some out) (u v : Nat) :
    out.px u v =
      if 0 ≤ (u : Int) - pos.1 ∧ (u : Int) - pos.1 < (src.w : Int) ∧
          0 ≤ (v : Int) - pos.2 ∧ (v : Int) - pos.2 < (src.h : Int) then
        blendPix (dst.px u v)
          (src.px ((u : Int) - pos.1).toNat ((v : Int) - pos.2).toNat)
          ((mask.px ((u : Int) - pos.1).toNat ((v : Int) - pos.2).toNat).a)
      else dst.px u v := by
  unfold Img.pasteMask at h
  by_cases hc : mask.w = src.w ∧ mask.h = src.h
  · rw [if_pos hc] at h
    simp only [Option.some.injEq] at h
    subst h
    rfl
  · rw [if_neg hc] at h
    simp at h

/-- When mask and photo have the same size, so does the scaled photo. -/
lemma scaledPhotoOf_size (rk : ResizeKernel) (mask photo : Img)
    (hw : mask.w = photo.w) (hh : mask.h = photo.h) :
    (scaledPhotoOf rk mask photo).w = mask.w ∧
    (scaledPhotoOf rk mask photo).h = mask.h := by
  unfold scaledPhotoOf
  by_cases hz : mask.w = 0 ∨ mask.h = 0 ∨ photo.w = 0 ∨ photo.h = 0
  · rw [if_pos hz]
    exact ⟨hw.symm, hh.symm⟩
  · rw [if_neg hz]
    exact ⟨rfl, rfl⟩

/-! ## Claim C10: per-layer compositing keeps the canvas size -/

/-- C10: every successful call of the compositor, in both swap and
standard mode, for every mask, photo and position, returns a canvas of
exactly the input canvas's pixel dimensions; only the separate final
rescale changes the size. -/
theorem claim_C10 (rk : ResizeKernel) (base mask photo : Img)
    (pos : Int × Int) (is_swap : Bool) (out : Img)
    (h : process_image rk base mask photo pos is_swap = some out) :
    out.w = base.w ∧ out.h = base.h := by
  unfold process_image at h
  cases h1 : Img.pasteMask (Img.blank mask.w mask.h)
      (scaledPhotoOf rk mask photo) (0, 0) mask with
  | none =>
    simp only [h1] at h
    simp at h
  | some masked =>
    simp only [h1] at h
    cases is_swap with
    | false =>
      simp only [Bool.false_eq_true, if_false] at h
      exact pasteMask_size _ _ _ _ _ h
    | true =>
      simp only [if_true] at h
      cases h2 : Img.pasteMask (Img.blank base.w base.h) masked pos
          masked with
      | none =>
        simp only [h2] at h
        simp at h
      | some temp =>
        simp only [h2] at h
        have ht := pasteMask_size _ _ _ _ _ h2
        have ho := pasteMask_size _ _ _ _ _ h
        simp only [Img.blank] at ht
        exact ⟨ho.1.trans ht.1, ho.2.trans ht.2⟩

/-- Witness for C10: a concrete 1x1 composition returns a 1x1 canvas. -/
theorem claim_C10_witness :
    ∃ out, process_image (fun _ _ _ _ _ => transparent)
        ⟨1, 1, fun _ _ => ⟨255, 0, 0, 255⟩⟩ ⟨1, 1, fun _ _ => ⟨0, 0, 0, 255⟩⟩
        ⟨1, 1, fun _ _ => ⟨0, 0, 255, 255⟩⟩ (0, 0) false = some out ∧
      out.w = 1 ∧ out.h = 1 := by
  have hs : (process_image (fun _ _ _ _ _ => transparent)
      ⟨1, 1, fun _ _ => ⟨255, 0, 0, 255⟩⟩ ⟨1, 1, fun _ _ => ⟨0, 0, 0, 255⟩⟩
      ⟨1, 1, fun _ _ => ⟨0, 0, 255, 255⟩⟩ (0, 0) false).isSome := by decide
  obtain ⟨out, hout⟩ := Option.isSome_iff_exists.mp hs
  exact ⟨out, hout,
    claim_C10 (fun _ _ _ _ _ => transparent) _ _ _ (0, 0) false out hout⟩

/-! ## Claim C9: compose with equal mask and photo sizes -/

/-- C9 counterexample: with identical 1x1 mask and photo sizes, a mask
of alpha 128 (not opaque, so the pixel is outside the mask's opaque
region) still changes the canvas pixel, because paste blends
intermediate mask values: the red opaque canvas pixel becomes
(127, 0, 64, 191), not the original (255, 0, 0, 255). -/
theorem claim_C9_counterexample :
    (Img.px ⟨1, 1, fun _ _ => ⟨0, 0, 0, 128⟩⟩ 0 0).a ≠ 255 ∧
    (process_image (fun _ _ _ _ _ => transparent)
        ⟨1, 1, fun _ _ => ⟨255, 0, 0, 255⟩⟩ ⟨1, 1, fun _ _ => ⟨0, 0, 0, 128⟩⟩
        ⟨1, 1, fun _ _ => ⟨0, 0, 255, 255⟩⟩ (0, 0) false).map
      (fun o => o.px 0 0) = some ⟨127, 0, 64, 191⟩ ∧
    (⟨127, 0, 64, 191⟩ : Pix) ≠ ⟨255, 0, 0, 255⟩ := by
  refine ⟨by decide, by decide, by decide⟩

/-- C9 (amended): when mask and photo have identical pixel dimensions no
scaling is performed and the composition always succeeds with a canvas
of the input canvas's size; every canvas pixel lying outside the pasted
mask rectangle, or at which the mask's alpha (offset by the paste
position) is ZERO, is unchanged — in standard mode unconditionally, in
swap mode provided the input canvas pixel is fully opaque.  Pixels under
intermediate (non-zero, non-255) mask alpha are blended, so the claim's
opaque-region boundary is corrected to the zero-alpha boundary. -/
theorem claim_C9 (rk : ResizeKernel) (base mask photo : Img)
    (pos : Int × Int) (is_swap : Bool)
    (hw : mask.w = photo.w) (hh : mask.h = photo.h) (hvalid : base.Valid) :
    resizeDecision (mask.w, mask.h) (photo.w, photo.h) = none ∧
    ∃ out, process_image rk base mask photo pos is_swap = some out ∧
      out.w = base.w ∧ out.h = base.h ∧
      ∀ u v, u < base.w → v < base.h →
        (¬ (0 ≤ (u : Int) - pos.1 ∧ (u : Int) - pos.1 < (mask.w : Int) ∧
            0 ≤ (v : Int) - pos.2 ∧ (v : Int) - pos.2 < (mask.h : Int)) ∨
         (mask.px ((u : Int) - pos.1).toNat ((v : Int) - pos.2).toNat).a
           = 0) →
        (is_swap = false → out.px u v = base.px u v) ∧
        (is_swap = true → (base.px u v).a = 255 →
          out.px u v = base.px u v) := by
  have hnc : ¬ ((mask.w, mask.h).1 < (photo.w, photo.h).1 ∨
      (mask.w, mask.h).2 < (photo.w, photo.h).2) := by
    show ¬ (mask.w < photo.w ∨ mask.h < photo.h)
    omega
  have hrd : resizeDecision (mask.w, mask.h) (photo.w, photo.h) = none := by
    unfold resizeDecision
    rw [if_neg hnc]
  refine ⟨hrd, ?_⟩
  have hsz := scaledPhotoOf_size rk mask photo hw hh
  obtain ⟨masked, hm⟩ := Option.isSome_iff_exists.mp
    (pasteMask_isSome (Img.blank mask.w mask.h) (scaledPhotoOf rk mask photo)
      (0, 0) mask ⟨hsz.1.symm, hsz.2.symm⟩)
  have hmw : masked.w = mask.w := by
    simpa [Img.blank] using (pasteMask_size _ _ _ _ _ hm).1
  have hmh : masked.h = mask.h := by
    simpa [Img.blank] using (pasteMask_size _ _ _ _ _ hm).2
  have hmaskedpx : ∀ su sv : Nat, (mask.px su sv).a = 0 →
      masked.px su sv = transparent := by
    intro su sv ha
    rw [pasteMask_px _ _ _ _ _ hm su sv]
    by_cases hinb : 0 ≤ (su : Int) - ((0 : Int), (0 : Int)).1 ∧
        (su : Int) - ((0 : Int), (0 : Int)).1 <
          ((scaledPhotoOf rk mask photo).w : Int) ∧
        0 ≤ (sv : Int) - ((0 : Int), (0 : Int)).2 ∧
        (sv : Int) - ((0 : Int), (0 : Int)).2 <
          ((scaledPhotoOf rk mask photo).h : Int)
    · rw [if_pos hinb]
      simp only [Int.sub_zero, Int.toNat_natCast]
      rw [ha]
      exact blendPix_zero _ _
        ⟨Nat.zero_le _, Nat.zero_le _, Nat.zero_le _, Nat.zero_le _⟩
    · rw [if_neg hinb]
      rfl
  cases is_swap with
  | false =>
    obtain ⟨out, hout⟩ := Option.isSome_iff_exists.mp
      (pasteMask_isSome base masked pos masked ⟨rfl, rfl⟩)
    refine ⟨out, ?_, (pasteMask_size _ _ _ _ _ hout).1,
      (pasteMask_size _ _ _ _ _ hout).2, ?_⟩
    · simp only [process_image, hm, Bool.false_eq_true, if_false]
      exact hout
    · intro u v hu hv hcase
      refine ⟨fun _ => ?_, fun hfalse => absurd hfalse (by simp)⟩
      rw [pasteMask_px _ _ _ _ _ hout u v]
      simp only [hmw, hmh]
      by_cases hinb : 0 ≤ (u : Int) - pos.1 ∧
          (u : Int) - pos.1 < (mask.w : Int) ∧
          0 ≤ (v : Int) - pos.2 ∧ (v : Int) - pos.2 < (mask.h : Int)
      · have hzero := hcase.resolve_left (not_not_intro hinb)
        rw [if_pos hinb]
        rw [hmaskedpx _ _ hzero]
        exact blendPix_zero _ _ (hvalid u v hu hv)
      · rw [if_neg hinb]
  | true =>
    obtain ⟨temp, htemp⟩ := Option.isSome_iff_exists.mp
      (pasteMask_isSome (Img.blank base.w base.h) masked pos masked
        ⟨rfl, rfl⟩)
    obtain ⟨out, hout⟩ := Option.isSome_iff_exists.mp
      (pasteMask_isSome temp base (0, 0) base ⟨rfl, rfl⟩)
    have htw : temp.w = base.w := by
      simpa [Img.blank] using (pasteMask_size _ _ _ _ _ htemp).1
    have hth : temp.h = base.h := by
      simpa [Img.blank] using (pasteMask_size _ _ _ _ _ htemp).2
    refine ⟨out, ?_, (pasteMask_size _ _ _ _ _ hout).1.trans htw,
      (pasteMask_size _ _ _ _ _ hout).2.trans hth, ?_⟩
    · simp only [process_image, hm, if_true, htemp]
      exact hout
    · intro u v hu hv hcase
      refine ⟨fun hfalse => absurd hfalse (by simp), fun _ hopaque => ?_⟩
      have htpx : temp.px u v = transparent := by
        rw [pasteMask_px _ _ _ _ _ htemp u v]
        simp only [hmw, hmh]
        by_cases hinb : 0 ≤ (u : Int) - pos.1 ∧
            (u : Int) - pos.1 < (mask.w : Int) ∧
            0 ≤ (v : Int) - pos.2 ∧ (v : Int) - pos.2 < (mask.h : Int)
        · have hzero := hcase.resolve_left (not_not_intro hinb)
          rw [if_pos hinb]
          rw [hmaskedpx _ _ hzero]
          exact blendPix_zero _ _
            ⟨Nat.zero_le _, Nat.zero_le _, Nat.zero_le _, Nat.zero_le _⟩
        · rw [if_neg hinb]
          rfl
      rw [pasteMask_px _ _ _ _ _ hout u v]
      rw [if_pos ⟨by simp, by simpa using (by exact_mod_cast hu :
          (u : Int) < (base.w : Int)), by simp, by simpa using
          (by exact_mod_cast hv : (v : Int) < (base.h : Int))⟩]
      simp only [Int.sub_zero, Int.toNat_natCast]
      rw [htpx, hopaque]
      exact blendPix_full _ _
        ⟨(hvalid u v hu hv).1, (hvalid u v hu hv).2.1,
         (hvalid u v hu hv).2.2.1, (hvalid u v hu hv).2.2.2⟩

/-- Witness for C9: with an all-zero-alpha 1x1 mask, the canvas pixel
survives composition unchanged. -/
theorem claim_C9_witness :
    ∃ out, process_image (fun _ _ _ _ _ => transparent)
        ⟨1, 1, fun _ _ => ⟨9, 8, 7, 255⟩⟩ ⟨1, 1, fun _ _ => ⟨0, 0, 0, 0⟩⟩
        ⟨1, 1, fun _ _ => ⟨0, 0, 255, 255⟩⟩ (0, 0) false = some out ∧
      out.px 0 0 = ⟨9, 8, 7, 255⟩ := by
  obtain ⟨-, out, hout, -, -, hpx⟩ :=
    claim_C9 (fun _ _ _ _ _ => transparent)
      ⟨1, 1, fun _ _ => ⟨9, 8, 7, 255⟩⟩ ⟨1, 1, fun _ _ => ⟨0, 0, 0, 0⟩⟩
      ⟨1, 1, fun _ _ => ⟨0, 0, 255, 255⟩⟩ (0, 0) false rfl rfl
      (fun u v _ _ =>
        ⟨(by decide : (9 : Nat) ≤ 255), (by decide : (8 : Nat) ≤ 255),
         (by decide : (7 : Nat) ≤ 255), (by decide : (255 : Nat) ≤ 255)⟩)
  exact ⟨out, hout,
    ((hpx 0 0 (by decide) (by decide) (Or.inr (by decide))).1 rfl)⟩

end MemeMaker
